import Mathlib

/-!
Verification development for the pyxsim / photon_simulator photon-projection
pipeline.  The definitions below are shallow embeddings of the Python source:

  * `src/pyxsim/photon_list.py`   — `PhotonList.__init__`, `project_photons`
  * `src/photon_simulator/event_list.py` — `EventList.__add__`,
    `EventList.__getitem__`, `write_fits_image`

Numeric values are embedded as exact rationals (`ℚ`); the only places real
numbers are needed are the relativistic Doppler factor (`np.sqrt`) and the
`dtheta` angle (`np.rad2deg`), which live in `ℝ`.  Randomness is passed in as
explicit oracle data (the permutation `np.random.permutation` would return and
the streams of positional offset draws), mirroring the code's explicit `prng`
parameter.  The embedding models a single-process run: `comm.mpi_allreduce`
and `comm.par_combine_object` degenerate to the identity, as the spec's
CollectiveMerge section says they do in non-distributed execution.
-/

namespace Pyxsim

/-- Fiducial parameters of a `PhotonList` (the `parameters` dict entries used
by `project_photons`). -/
structure PhotonParams where
  fidExpTime : ℚ    -- parameters["FiducialExposureTime"], s
  fidArea : ℚ       -- parameters["FiducialArea"], cm**2
  fidRedshift : ℚ   -- parameters["FiducialRedshift"]
  fidDA : ℚ         -- parameters["FiducialAngularDiameterDistance"], Mpc
  dimension : ℕ     -- parameters["Dimension"]
  width : ℚ         -- parameters["Width"], kpc
  deriving DecidableEq

/-- The per-cell photon data of a `PhotonList` (`self.photons`): positions and
velocities per cell, cell widths, per-cell photon counts, and the flat
rest-frame energy array. -/
structure PhotonData where
  x : List ℚ        -- photons["x"], kpc
  y : List ℚ        -- photons["y"], kpc
  z : List ℚ        -- photons["z"], kpc
  vx : List ℚ       -- photons["vx"], km/s
  vy : List ℚ       -- photons["vy"], km/s
  vz : List ℚ       -- photons["vz"], km/s
  dx : List ℚ       -- photons["dx"], kpc
  numPh : List ℕ    -- photons["NumberOfPhotons"]
  energy : List ℚ   -- photons["Energy"], keV (flat, length = numPh.sum)
  deriving DecidableEq

/-- A `PhotonList` instance: photon data plus parameters. -/
structure PhotonList where
  photons : PhotonData
  params : PhotonParams
  deriving DecidableEq

/-- `np.cumsum` on a list of naturals: running totals. -/
def cumsum : List ℕ → List ℕ
  | [] => []
  | c :: cs => c :: (cumsum cs).map (c + ·)

/-- `PhotonList.__init__` line 60-61: `p_bins = np.cumsum(photons["NumberOfPhotons"])`
then `np.insert(p_bins, 0, [0])`, i.e. the cumulative photon-count index with a
leading zero. -/
def p_bins (counts : List ℕ) : List ℕ := 0 :: cumsum counts

/-- `np.searchsorted(a, v, side='right')` on a sorted array `a`: the leftmost
insertion index `i` such that every element before `i` is `≤ v` and the element
at `i` (if any) is `> v`; on sorted input this is the length of the longest
prefix of elements `≤ v`. -/
def searchsorted_right (a : List ℕ) (v : ℕ) : ℕ :=
  (a.takeWhile (fun x => decide (x ≤ v))).length

/-- Line 577: `obs_cells = np.searchsorted(self.p_bins, idxs, side='right')-1`,
mapping each selected photon index to its owning cell. -/
def obs_cells (pbins : List ℕ) (idxs : List ℕ) : List ℕ :=
  idxs.map (fun j => searchsorted_right pbins j - 1)

/-- Result of the rescaling step of `project_photons` (lines 516-567): the
number of photons to observe, the observed redshift, the angular diameter
distance, and the cosmological energy scale factor. -/
structure RescaleOut where
  myNObs : ℕ        -- my_n_obs
  zobs : ℚ          -- zobs
  dA : ℚ            -- D_A, Mpc
  scaleFactor : ℚ   -- scale_factor
  deriving DecidableEq

/-- Lines 518-567 of `project_photons`: compute the ratios
`Tratio`, `Aratio`, `Dratio`, the product `fak`, raise the budget error if
`fak > 1` (the code raises `ValueError` with a "more photons ... than are
available in the sample" message; the spec names this condition
`BudgetExceeded`), and otherwise set `my_n_obs = np.uint64(n_ph_tot*fak)`
(truncation of a non-negative value = floor).  `cosmoDA` is the external
cosmology collaborator `self.cosmo.angular_diameter_distance(0, zobs)`; an
`AuxiliaryResponseFile` area is represented by its `max_area` value, which is
what the code uses for `Aratio` in that branch. -/
def rescaleStep (p : PhotonParams) (cosmoDA : ℚ → ℚ)
    (areaNew expTimeNew redshiftNew distNew : Option ℚ) (nPhTot : ℕ) :
    Except String RescaleOut :=
  if expTimeNew = none ∧ areaNew = none ∧ redshiftNew = none ∧ distNew = none then
    Except.ok ⟨nPhTot, p.fidRedshift, p.fidDA, 1⟩
  else
    let tratio : ℚ := match expTimeNew with
      | none => 1
      | some t => t / p.fidExpTime
    let aratio : ℚ := match areaNew with
      | none => 1
      | some a => a / p.fidArea
    let dzd : ℚ × ℚ × ℚ × ℚ :=
      match redshiftNew, distNew with
      | none, none => (1, p.fidRedshift, p.fidDA, 1)
      | none, some d =>
          (p.fidDA * p.fidDA * (1 + p.fidRedshift)^3 / (d * d * (1 + (0:ℚ))^3),
           0, d, 1)
      | some z, _ =>
          (p.fidDA * p.fidDA * (1 + p.fidRedshift)^3 /
             (cosmoDA z * cosmoDA z * (1 + z)^3),
           z, cosmoDA z, (1 + p.fidRedshift) / (1 + z))
    let fak := aratio * tratio * dzd.1
    if fak > 1 then
      Except.error "BudgetExceeded"
    else
      Except.ok ⟨(⌊(nPhTot : ℚ) * fak⌋).toNat, dzd.2.1, dzd.2.2.1, dzd.2.2.2⟩

/-- Lines 573-576: `if my_n_obs == n_ph_tot: idxs = np.arange(my_n_obs)` else
`idxs = prng.permutation(n_ph_tot)[:my_n_obs]`.  `perm` is the permutation of
`[0, nPhTot)` the generator would return. -/
def select_idxs (myNObs nPhTot : ℕ) (perm : List ℕ) : List ℕ :=
  if myNObs = nPhTot then List.range myNObs else perm.take myNObs

/-- A principal projection axis. -/
inductive Axis
  | x
  | y
  | z
  deriving DecidableEq

/-- The `axes_lookup` table (lines 21-23): the two sky-plane axes for each
principal line-of-sight axis. -/
def axes_lookup : Axis → Axis × Axis
  | .x => (.y, .z)
  | .y => (.z, .x)
  | .z => (.x, .y)

/-- Per-cell position field selected by axis (`photons["x"]` etc.). -/
def posField (d : PhotonData) : Axis → List ℚ
  | .x => d.x
  | .y => d.y
  | .z => d.z

/-- Per-cell velocity field selected by axis (`photons["vx"]` etc.). -/
def velField (d : PhotonData) : Axis → List ℚ
  | .x => d.vx
  | .y => d.vy
  | .z => d.vz

/-- The `normal` argument of `project_photons`: either a principal axis
("x"/"y"/"z", the fast path), or an arbitrary direction for which the yt
`Orientation` collaborator supplies the orthonormal basis
`x_hat, y_hat, z_hat` (lines 506-511). -/
inductive Normal
  | axis : Axis → Normal
  | vector : (ℚ × ℚ × ℚ) → (ℚ × ℚ × ℚ) → (ℚ × ℚ × ℚ) → Normal
  deriving DecidableEq

/-- Positional scattering (lines 588-591 / 612-617): each selected photon gets
a sub-cell offset draw scaled by its owner's cell width and added to the
owner's center coordinate: `off*delta + pos[obs_cells]`.  `off` is the stream
of unit draws (`prng.uniform(-0.5, 0.5, ...)` for cell data,
`prng.normal(0, 1, ...)` for particle data — both enter this arithmetic the
same way). -/
def scatter (off delta pos : List ℚ) (cells : List ℕ) : List ℚ :=
  (off.zip (delta.zip cells)).map (fun p => p.1 * p.2.1 + pos.getD p.2.2 0)

/-- Lines 607-610: line-of-sight velocity per cell for an off-axis projection,
`vz = vx*z_hat[0] + vy*z_hat[1] + vz*z_hat[2]` (km/s). -/
def vlosDot (d : PhotonData) (zhat : ℚ × ℚ × ℚ) : List ℚ :=
  (d.vx.zip (d.vy.zip d.vz)).map
    (fun v => v.1 * zhat.1 + v.2.1 * zhat.2.1 + v.2.2 * zhat.2.2)

/-- The speed of light in cgs (cm/s), `yt.utilities.physical_constants.clight`. -/
def cLight : ℝ := 29979245800

/-- Lines 625-626: `shift = -vz.in_cgs()/clight;
shift = np.sqrt((1.-shift)/(1.+shift))`.  The argument is the per-cell
line-of-sight velocity in km/s (the stored unit), converted to cm/s by
`in_cgs`. -/
noncomputable def dopplerShift (vzKms : ℝ) : ℝ :=
  Real.sqrt ((1 - -(vzKms * 100000) / cLight) / (1 + -(vzKms * 100000) / cLight))

/-- Line 627-628 (shifting path):
`eobs = self.photons["Energy"][idxs]*shift[obs_cells]` followed by
`eobs *= scale_factor`. -/
noncomputable def eobsShifted (energy vzCells : List ℚ) (idxs cells : List ℕ)
    (scale : ℚ) : List ℝ :=
  (idxs.zip cells).map
    (fun p => (energy.getD p.1 0 : ℝ) * dopplerShift (vzCells.getD p.2 0) * (scale : ℝ))

/-- Line 623 and 628 (no-shifting path): `eobs = self.photons["Energy"][idxs]`
followed by `eobs *= scale_factor`. -/
def eobsNoShift (energy : List ℚ) (idxs : List ℕ) (scale : ℚ) : List ℚ :=
  idxs.map (fun j => energy.getD j 0 * scale)

/-- Random draws consumed by `project_photons`, passed as explicit oracle data
standing for the `prng` argument: the permutation `prng.permutation(n_ph_tot)`
would return and the three positional offset streams. -/
structure Rng where
  perm : List ℕ
  off1 : List ℚ
  off2 : List ℚ
  off3 : List ℚ
  deriving DecidableEq

/-- The `EventList` payload built at the end of `project_photons`
(lines 650-680): the events dict fields and the parameters recorded with them.
(`pyxsim/event_list.py` itself is not part of the sources; only the payload
handed to its constructor is modelled.) -/
structure EventListOut where
  xpix : List ℚ
  ypix : List ℚ
  eobs : List ℝ
  exposureTime : ℚ
  area : ℚ
  redshift : ℚ
  dA : ℚ
  skyCenter : ℚ × ℚ
  pixCenter : ℚ × ℚ
  dtheta : ℝ

/-- `PhotonList.project_photons` (lines 434-680), for the parameter range the
claims quantify over: `absorb_model=None` and no `responses` (so `not_abs` and
`detected` are all `True`, lines 630-631 and 642-643, and every sampled photon
becomes an event), numeric `area_new`, single-process execution
(`comm.mpi_allreduce` and `comm.par_combine_object` are identities).
`cosmoDA` is the cosmology collaborator.  The function returns the
`PhotonList` state after the call (the method never assigns to `self.photons`
or `self.parameters`; fancy indexing copies, so the input is returned
unchanged) together with either the budget error or the constructed
`EventList` payload. -/
noncomputable def project_photons (pl : PhotonList) (normal : Normal)
    (areaNew expTimeNew redshiftNew distNew : Option ℚ)
    (noShifting : Bool) (skyCenter : ℚ × ℚ) (rng : Rng) (cosmoDA : ℚ → ℚ) :
    PhotonList × Except String EventListOut :=
  let nx := pl.params.dimension
  let nPhTot := pl.photons.numPh.sum
  match rescaleStep pl.params cosmoDA areaNew expTimeNew redshiftNew distNew nPhTot with
  | Except.error e => (pl, Except.error e)
  | Except.ok r =>
    let idxs := select_idxs r.myNObs nPhTot rng.perm
    let cells := obs_cells (p_bins pl.photons.numPh) idxs
    let delta := cells.map (fun c => pl.photons.dx.getD c 0)
    let sky : List ℚ × List ℚ :=
      match normal with
      | .axis ax =>
          (scatter rng.off1 delta (posField pl.photons (axes_lookup ax).1) cells,
           scatter rng.off2 delta (posField pl.photons (axes_lookup ax).2) cells)
      | .vector xhat yhat _ =>
          let px := scatter rng.off1 delta pl.photons.x cells
          let py := scatter rng.off2 delta pl.photons.y cells
          let pz := scatter rng.off3 delta pl.photons.z cells
          (((px.zip (py.zip pz)).map
              (fun p => p.1 * xhat.1 + p.2.1 * xhat.2.1 + p.2.2 * xhat.2.2)),
           ((px.zip (py.zip pz)).map
              (fun p => p.1 * yhat.1 + p.2.1 * yhat.2.1 + p.2.2 * yhat.2.2)))
    let vzCells : List ℚ :=
      match normal with
      | .axis ax => velField pl.photons ax
      | .vector _ _ zhat => vlosDot pl.photons zhat
    let eobs : List ℝ :=
      if noShifting then
        (eobsNoShift pl.photons.energy idxs r.scaleFactor).map
          (fun (q : ℚ) => (q : ℝ))
      else
        eobsShifted pl.photons.energy vzCells idxs cells r.scaleFactor
    let dxMin : ℚ := pl.params.width / pl.params.dimension
    (pl, Except.ok
      { xpix := sky.1.map (fun v => v / dxMin + (1/2) * ((nx : ℚ) + 1))
        ypix := sky.2.map (fun v => v / dxMin + (1/2) * ((nx : ℚ) + 1))
        eobs := eobs
        exposureTime := expTimeNew.getD pl.params.fidExpTime
        area := areaNew.getD pl.params.fidArea
        redshift := r.zobs
        dA := r.dA
        skyCenter := skyCenter
        pixCenter := ((1/2) * ((nx : ℚ) + 1), (1/2) * ((nx : ℚ) + 1))
        dtheta := (180 / Real.pi) * ((dxMin : ℝ) / (r.dA : ℝ)) })

/-! ### `src/photon_simulator/event_list.py` -/

/-- The `parameters` dict of a `photon_simulator` `EventList`, restricted to
the numeric fields the modelled operations read.  (`Area` may also be an ARF
filename string in the source; that variant only matters for SIMPUT writing,
which is out of scope here.) -/
structure EvParams where
  expTime : ℚ             -- parameters["ExposureTime"], s
  area : ℚ                -- parameters["Area"], cm**2
  redshift : ℚ            -- parameters["Redshift"]
  dA : ℚ                  -- parameters["AngularDiameterDistance"], Mpc
  skyCenter : ℚ × ℚ       -- parameters["sky_center"], deg
  pixCenter : ℚ × ℚ       -- parameters["pix_center"]
  dtheta : ℚ              -- parameters["dtheta"], deg
  deriving DecidableEq

/-- A `photon_simulator` `EventList`: the `events` dict modelled as an
insertion-ordered association list (Python dicts preserve insertion order) of
field name to column, plus the parameters.  The columns produced by projection
are `xpix`, `ypix`, `eobs` in that order; a prior sky-coordinate access
appends `xsky` and `ysky` (`__getitem__`, lines 66-72). -/
structure EventListPS where
  events : List (String × List ℚ)
  params : EvParams
  deriving DecidableEq

/-- `assert_same_wcs(self.wcs, other.wcs)` (line 81): the WCS of an
`EventList` is built in `__init__` (lines 47-52) from `pix_center`,
`sky_center` and `dtheta`, so two WCS agree exactly when those three
parameters agree. -/
def sameWcs (p q : EvParams) : Bool :=
  p.pixCenter = q.pixCenter ∧ p.skyCenter = q.skyCenter ∧ p.dtheta = q.dtheta

/-- Modelled from the spec: `validate_parameters` lives in
`photon_simulator/utils.py`, which is not among the sources; per the spec,
"parameter sets must match except where a merge policy explicitly allows
divergence", and `__add__` passes no skip list, so it checks that the two
parameter sets are identical. -/
def validate_parameters (p q : EvParams) : Bool := p = q

/-- `EventList.__add__` (lines 80-88): assert equal WCS, validate parameters,
then zip the two `items()` sequences positionally and store, under the LEFT
operand's key, the concatenation of the paired values.  A mismatch raises;
the spec calls that condition `GeometryMismatch`. -/
def addEventLists (a b : EventListPS) : Except String EventListPS :=
  if ¬ sameWcs a.params b.params then Except.error "GeometryMismatch"
  else if ¬ validate_parameters a.params b.params then Except.error "GeometryMismatch"
  else Except.ok
    { events := (a.events.zip b.events).map (fun p => (p.1.1, p.1.2 ++ p.2.2))
      params := a.params }

/-- Python `int()` applied to a non-negative rational (truncation = floor). -/
def pyInt (q : ℚ) : ℕ := (⌊q⌋).toNat

/-- `write_fits_image` lines 484-493: the energy mask.  `mask_emin` is
`eobs > emin` when `emin` is given (all `True` otherwise), `mask_emax` is
`eobs < emax` when `emax` is given, and `mask` is their conjunction. -/
def energyMask (emin emax : Option ℚ) (e : ℚ) : Bool :=
  (match emin with | none => true | some m => decide (m < e)) &&
  (match emax with | none => true | some m => decide (e < m))

/-- Membership of a value in bin `i` of `np.histogram`'s uniform grid with
edges `0.5, 1.5, ..., nb + 0.5` (the `np.linspace(0.5, nb+0.5, nb+1)` edges of
`write_fits_image`, lines 498-499): every bin is closed-open except the last,
which is closed on both sides. -/
def inBin (nb i : ℕ) (v : ℚ) : Bool :=
  decide ((1:ℚ)/2 + i ≤ v) &&
    (if i + 1 = nb then decide (v ≤ (1:ℚ)/2 + nb) else decide (v < (1:ℚ)/2 + (i + 1)))

/-- The per-event rows `(xpix, ypix, eobs)` of an `EventList`, aligned
positionally. -/
def eventTriples (xpix ypix eobs : List ℚ) : List (ℚ × ℚ × ℚ) :=
  xpix.zip (ypix.zip eobs)

/-- `write_fits_image` lines 495-503: the number of bins per axis,
`nx = int(2*pix_center[0]-1.)`, `ny = int(2*pix_center[1]-1.)`, and the 2D
histogram `H` of the energy-masked `(xpix, ypix)` pairs over the
`[0.5, nx+0.5] × [0.5, ny+0.5]` grid: `H i j` counts masked events whose
coordinates fall in bin `(i, j)`. -/
def binImage (pixCenter : ℚ × ℚ) (xpix ypix eobs : List ℚ)
    (emin emax : Option ℚ) : ℕ × ℕ × (ℕ → ℕ → ℕ) :=
  let nx := pyInt (2 * pixCenter.1 - 1)
  let ny := pyInt (2 * pixCenter.2 - 1)
  (nx, ny, fun i j =>
    (eventTriples xpix ypix eobs).countP
      (fun t => energyMask emin emax t.2.2 && inBin nx i t.1 && inBin ny j t.2.1))

/-! ### Helper lemmas -/

theorem cumsum_length (l : List ℕ) : (cumsum l).length = l.length := by
  induction l with
  | nil => rfl
  | cons c cs ih => simp [cumsum, ih]

theorem getD_map_add (c : ℕ) (l : List ℕ) (i : ℕ) (h : i < l.length) :
    (l.map (c + ·)).getD i 0 = c + l.getD i 0 := by
  induction l generalizing i with
  | nil => simp at h
  | cons a t ih =>
    cases i with
    | zero => simp
    | succ i' =>
      simp only [List.map_cons, List.getD_cons_succ]
      exact ih i' (by simpa using h)

theorem cumsum_getD (l : List ℕ) (i : ℕ) (h : i < l.length) :
    (cumsum l).getD i 0 = (l.take (i + 1)).sum := by
  induction l generalizing i with
  | nil => simp at h
  | cons c cs ih =>
    cases i with
    | zero => simp [cumsum]
    | succ i' =>
      have hlt : i' < cs.length := by simpa using h
      have hlt' : i' < (cumsum cs).length := by rw [cumsum_length]; exact hlt
      simp only [cumsum, List.getD_cons_succ, List.take, List.sum_cons]
      rw [getD_map_add c (cumsum cs) i' hlt', ih i' hlt]

theorem p_bins_getD (l : List ℕ) (i : ℕ) (h : i ≤ l.length) :
    (p_bins l).getD i 0 = (l.take i).sum := by
  cases i with
  | zero => simp [p_bins]
  | succ i' =>
    simp only [p_bins, List.getD_cons_succ]
    exact cumsum_getD l i' (by omega)

theorem take_sum_le_take_sum (l : List ℕ) (i j : ℕ) (h : i ≤ j) :
    (l.take i).sum ≤ (l.take j).sum := by
  induction l generalizing i j with
  | nil => simp
  | cons a t ih =>
    cases i with
    | zero => simp
    | succ i' =>
      cases j with
      | zero => omega
      | succ j' =>
        simp only [List.take, List.sum_cons]
        exact Nat.add_le_add_left (ih i' j' (by omega)) a

theorem takeWhile_getD_true (p : ℕ → Bool) (l : List ℕ) (k : ℕ)
    (h : k < (l.takeWhile p).length) : p (l.getD k 0) = true := by
  induction l generalizing k with
  | nil => simp [List.takeWhile] at h
  | cons a t ih =>
    by_cases hpa : p a = true
    · cases k with
      | zero => simpa using hpa
      | succ k' =>
        simp only [List.getD_cons_succ]
        refine ih k' ?_
        simp only [List.takeWhile, hpa, List.length_cons] at h
        omega
    · simp only [List.takeWhile, Bool.not_eq_true] at hpa ⊢
      simp [hpa] at h

theorem takeWhile_getD_false (p : ℕ → Bool) (l : List ℕ)
    (h : (l.takeWhile p).length < l.length) :
    p (l.getD (l.takeWhile p).length 0) = false := by
  induction l with
  | nil => simp at h
  | cons a t ih =>
    by_cases hpa : p a = true
    · simp only [List.takeWhile, hpa, List.length_cons, List.getD_cons_succ] at h ⊢
      exact ih (by omega)
    · simp only [Bool.not_eq_true] at hpa
      simp [List.takeWhile, hpa]

theorem takeWhile_length_le (p : ℕ → Bool) (l : List ℕ) :
    (l.takeWhile p).length ≤ l.length := by
  induction l with
  | nil => simp
  | cons a t ih =>
    by_cases hpa : p a = true
    · simp only [List.takeWhile, hpa, List.length_cons]
      omega
    · simp only [Bool.not_eq_true] at hpa
      simp [List.takeWhile, hpa]

theorem takeWhile_length_lt (p : ℕ → Bool) (l : List ℕ)
    (h : ∃ x ∈ l, p x = false) : (l.takeWhile p).length < l.length := by
  induction l with
  | nil => simp at h
  | cons a t ih =>
    by_cases hpa : p a = true
    · simp only [List.takeWhile, hpa, List.length_cons]
      have : ∃ x ∈ t, p x = false := by
        rcases h with ⟨x, hx, hpx⟩
        rcases List.mem_cons.mp hx with rfl | hxt
        · rw [hpa] at hpx; exact absurd hpx (by simp)
        · exact ⟨x, hxt, hpx⟩
      have := ih this
      omega
    · simp only [Bool.not_eq_true] at hpa
      simp [List.takeWhile, hpa]

theorem zip_getD {α β : Type} (l1 : List α) (l2 : List β) (d1 : α) (d2 : β)
    (k : ℕ) (h1 : k < l1.length) (h2 : k < l2.length) :
    (l1.zip l2).getD k (d1, d2) = (l1.getD k d1, l2.getD k d2) := by
  induction l1 generalizing l2 k with
  | nil => simp at h1
  | cons a t ih =>
    cases l2 with
    | nil => simp at h2
    | cons b s =>
      cases k with
      | zero => rfl
      | succ k' =>
        simp only [List.zip_cons_cons, List.getD_cons_succ]
        exact ih s k' (by simpa using h1) (by simpa using h2)

theorem map_getD {α β : Type} (f : α → β) (l : List α) (d : α) (db : β)
    (k : ℕ) (h : k < l.length) : (l.map f).getD k db = f (l.getD k d) := by
  induction l generalizing k with
  | nil => simp at h
  | cons a t ih =>
    cases k with
    | zero => rfl
    | succ k' =>
      simp only [List.map_cons, List.getD_cons_succ]
      exact ih k' (by simpa using h)

theorem getD_mem {l : List ℕ} {i : ℕ} (h : i < l.length) : l.getD i 0 ∈ l := by
  induction l generalizing i with
  | nil => simp at h
  | cons a t ih =>
    cases i with
    | zero => simp
    | succ i' =>
      simp only [List.getD_cons_succ]
      exact List.mem_cons_of_mem a (ih (by simpa using h))

/-! ### Spec-side rescaling formulas

The following definitions transcribe the formulas the spec (§4.1) and the
claims state; they are compared against the source-derived `rescaleStep`. -/

/-- Spec formula: `time_ratio = exposure₁/exposure₀` (1 if unset). -/
def specTratio (p : PhotonParams) (tN : Option ℚ) : ℚ :=
  match tN with
  | none => 1
  | some t => t / p.fidExpTime

/-- Spec formula: `area_ratio = area₁/area₀` (1 if unset). -/
def specAratio (p : PhotonParams) (aN : Option ℚ) : ℚ :=
  match aN with
  | none => 1
  | some a => a / p.fidArea

/-- The observed redshift: the requested one if given, 0 if only a distance
is requested, else the fiducial redshift. -/
def specZobs (p : PhotonParams) (zN dN : Option ℚ) : ℚ :=
  match zN, dN with
  | none, none => p.fidRedshift
  | none, some _ => 0
  | some z, _ => z

/-- The observed angular diameter distance: from the cosmology collaborator if
a redshift is requested, the requested distance if only that is given, else
the fiducial distance. -/
def specDA (p : PhotonParams) (cosmoDA : ℚ → ℚ) (zN dN : Option ℚ) : ℚ :=
  match zN, dN with
  | none, none => p.fidDA
  | none, some d => d
  | some z, _ => cosmoDA z

/-- Spec formula: `distance_ratio = (D₀² (1+z₀)³) / (D₁² (1+z₁)³)` when the
observation distance or redshift changes, else 1. -/
def specDratio (p : PhotonParams) (cosmoDA : ℚ → ℚ) (zN dN : Option ℚ) : ℚ :=
  match zN, dN with
  | none, none => 1
  | none, some d =>
      p.fidDA * p.fidDA * (1 + p.fidRedshift)^3 / (d * d * (1 + (0:ℚ))^3)
  | some z, _ =>
      p.fidDA * p.fidDA * (1 + p.fidRedshift)^3 /
        (cosmoDA z * cosmoDA z * (1 + z)^3)

/-- Spec formula: `fraction = area_ratio * time_ratio * distance_ratio`. -/
def specFraction (p : PhotonParams) (cosmoDA : ℚ → ℚ)
    (aN tN zN dN : Option ℚ) : ℚ :=
  specAratio p aN * specTratio p tN * specDratio p cosmoDA zN dN

/-- Spec formula: `scale_factor = (1+z_fiducial)/(1+z_requested)` when the
redshift is overridden, else 1. -/
def specScaleFactor (p : PhotonParams) (zN : Option ℚ) : ℚ :=
  match zN with
  | none => 1
  | some z => (1 + p.fidRedshift) / (1 + z)

/-- The source-derived `rescaleStep` agrees everywhere with the spec-side
formulas: it errors exactly when `fraction > 1` and otherwise returns
`my_n_obs = ⌊n_ph_tot * fraction⌋` together with the spec's observed
redshift, distance and scale factor (in the no-override fast path
`my_n_obs = n_ph_tot = ⌊n_ph_tot * 1⌋`, the identity optimization). -/
theorem rescaleStep_eq (p : PhotonParams) (cosmoDA : ℚ → ℚ)
    (aN tN zN dN : Option ℚ) (n : ℕ) :
    rescaleStep p cosmoDA aN tN zN dN n =
      if 1 < specFraction p cosmoDA aN tN zN dN then
        Except.error "BudgetExceeded"
      else
        Except.ok ⟨(⌊(n : ℚ) * specFraction p cosmoDA aN tN zN dN⌋).toNat,
                   specZobs p zN dN, specDA p cosmoDA zN dN,
                   specScaleFactor p zN⟩ := by
  rcases tN with _ | t <;> rcases aN with _ | a <;>
    rcases zN with _ | z <;> rcases dN with _ | d <;>
      simp [rescaleStep, specFraction, specAratio, specTratio, specDratio,
            specDA, specZobs, specScaleFactor]

/-! ### Claim theorems -/

/-- C1: whenever the requested overrides give `fraction > 1`, `project_photons`
raises the budget error before any random sampling draw is consumed (the
result does not depend on the generator), leaves the `PhotonList` unchanged,
and produces no `EventList`; whenever `fraction ≤ 1` no such error is
raised. -/
theorem claim_C1 (pl : PhotonList) (normal : Normal)
    (areaNew expTimeNew redshiftNew distNew : Option ℚ) (noShifting : Bool)
    (skyCenter : ℚ × ℚ) (rng rng' : Rng) (cosmoDA : ℚ → ℚ) :
    (1 < specFraction pl.params cosmoDA areaNew expTimeNew redshiftNew distNew →
      project_photons pl normal areaNew expTimeNew redshiftNew distNew
          noShifting skyCenter rng cosmoDA = (pl, Except.error "BudgetExceeded") ∧
      project_photons pl normal areaNew expTimeNew redshiftNew distNew
          noShifting skyCenter rng cosmoDA =
        project_photons pl normal areaNew expTimeNew redshiftNew distNew
          noShifting skyCenter rng' cosmoDA) ∧
    (specFraction pl.params cosmoDA areaNew expTimeNew redshiftNew distNew ≤ 1 →
      (project_photons pl normal areaNew expTimeNew redshiftNew distNew
          noShifting skyCenter rng cosmoDA).1 = pl ∧
      ∃ ev, (project_photons pl normal areaNew expTimeNew redshiftNew distNew
          noShifting skyCenter rng cosmoDA).2 = Except.ok ev) := by
  constructor
  · intro h
    have hrs : rescaleStep pl.params cosmoDA areaNew expTimeNew redshiftNew
        distNew pl.photons.numPh.sum = Except.error "BudgetExceeded" := by
      rw [rescaleStep_eq]; exact if_pos h
    constructor
    · simp only [project_photons, hrs]
    · simp only [project_photons, hrs]
  · intro h
    have hnot : ¬ 1 < specFraction pl.params cosmoDA areaNew expTimeNew
        redshiftNew distNew := not_lt.mpr h
    have hrs : rescaleStep pl.params cosmoDA areaNew expTimeNew redshiftNew
        distNew pl.photons.numPh.sum =
        Except.ok ⟨(⌊(pl.photons.numPh.sum : ℚ) *
            specFraction pl.params cosmoDA areaNew expTimeNew redshiftNew distNew⌋).toNat,
          specZobs pl.params redshiftNew distNew,
          specDA pl.params cosmoDA redshiftNew distNew,
          specScaleFactor pl.params redshiftNew⟩ := by
      rw [rescaleStep_eq]; exact if_neg hnot
    constructor
    · simp only [project_photons, hrs]
    · exact ⟨_, by simp only [project_photons, hrs]; rfl⟩

/-- Concrete photon list used by the C1 witness: one cell, five photons. -/
def exPl1 : PhotonList :=
  ⟨⟨[0], [0], [0], [0], [0], [0], [10], [5], [1, 2, 3, 4, 5]⟩,
   ⟨100000, 1000, 1/20, 500, 64, 1000⟩⟩

/-- Concrete rng oracle used by the C1 witness. -/
def exRng1 : Rng := ⟨[4, 2, 0, 3, 1], [0, 0, 0, 0, 0], [0, 0, 0, 0, 0], [0, 0, 0, 0, 0]⟩

/-- C1 witness: doubling the area (fraction 2 > 1) yields the budget error and
an unchanged photon list; halving it (fraction 1/2 ≤ 1) yields an event
list. -/
theorem claim_C1_witness :
    (project_photons exPl1 (Normal.axis Axis.z) (some 2000) none none none
        true (30, 45) exRng1 (fun _ => 500) =
      (exPl1, Except.error "BudgetExceeded")) ∧
    ((project_photons exPl1 (Normal.axis Axis.z) (some 500) none none none
        true (30, 45) exRng1 (fun _ => 500)).1 = exPl1 ∧
     ∃ ev, (project_photons exPl1 (Normal.axis Axis.z) (some 500) none none none
        true (30, 45) exRng1 (fun _ => 500)).2 = Except.ok ev) :=
  ⟨((claim_C1 exPl1 (Normal.axis Axis.z) (some 2000) none none none true
      (30, 45) exRng1 exRng1 (fun _ => 500)).1
        (by norm_num [specFraction, specAratio, specTratio, specDratio, exPl1])).1,
   (claim_C1 exPl1 (Normal.axis Axis.z) (some 500) none none none true
      (30, 45) exRng1 exRng1 (fun _ => 500)).2
        (by norm_num [specFraction, specAratio, specTratio, specDratio, exPl1])⟩

/-- C2: with at least one override requested and `fraction ≤ 1` (a product of
non-negative physical ratios), `my_n_obs = ⌊total_photons * fraction⌋` with
`fraction = Aratio * Tratio * Dratio` exactly as the spec's formulas
(`specAratio`, `specTratio`, `specDratio`) define them, `total_photons` being
this worker's local photon count. -/
theorem claim_C2 (p : PhotonParams) (cosmoDA : ℚ → ℚ)
    (areaNew expTimeNew redshiftNew distNew : Option ℚ) (nPhTot : ℕ)
    (_hover : ¬(expTimeNew = none ∧ areaNew = none ∧ redshiftNew = none ∧
               distNew = none))
    (hpos : 0 ≤ specFraction p cosmoDA areaNew expTimeNew redshiftNew distNew)
    (hle : specFraction p cosmoDA areaNew expTimeNew redshiftNew distNew ≤ 1) :
    ∃ r, rescaleStep p cosmoDA areaNew expTimeNew redshiftNew distNew nPhTot =
        Except.ok r ∧
      (r.myNObs : ℤ) =
        ⌊(nPhTot : ℚ) *
          (specAratio p areaNew * specTratio p expTimeNew *
            specDratio p cosmoDA redshiftNew distNew)⌋ := by
  refine ⟨_, by rw [rescaleStep_eq]; exact if_neg (not_lt.mpr hle), ?_⟩
  have hfl : 0 ≤ ⌊(nPhTot : ℚ) *
      specFraction p cosmoDA areaNew expTimeNew redshiftNew distNew⌋ := by
    apply Int.floor_nonneg.mpr
    exact mul_nonneg (by positivity) hpos
  simp only [specFraction] at hfl ⊢
  omega

/-- C2 witness: fiducial area 1000 cm², requested area 500 cm², 101 local
photons: `fraction = 1/2` and `my_n_obs = ⌊50.5⌋ = 50`. -/
theorem claim_C2_witness :
    ∃ r, rescaleStep ⟨100000, 1000, 1/20, 500, 64, 1000⟩ (fun _ => 500)
        (some 500) none none none 101 = Except.ok r ∧
      (r.myNObs : ℤ) =
        ⌊(101 : ℚ) *
          (specAratio ⟨100000, 1000, 1/20, 500, 64, 1000⟩ (some 500) *
            specTratio ⟨100000, 1000, 1/20, 500, 64, 1000⟩ none *
            specDratio ⟨100000, 1000, 1/20, 500, 64, 1000⟩ (fun _ => 500) none none)⌋ :=
  claim_C2 ⟨100000, 1000, 1/20, 500, 64, 1000⟩ (fun _ => 500)
    (some 500) none none none 101 (by decide)
    (by norm_num [specFraction, specAratio, specTratio, specDratio])
    (by norm_num [specFraction, specAratio, specTratio, specDratio])

/-- C3: when `my_n_obs` equals the local total, the selected index array is
exactly `[0, 1, ..., total-1]` whatever the generator holds (the identity
path consumes no draw); when `my_n_obs < total` the selection is the
truncation of the permutation to `my_n_obs` entries, which are pairwise
distinct and all in `[0, total)`. -/
theorem claim_C3 (nPhTot myNObs : ℕ) (perm : List ℕ) :
    select_idxs nPhTot nPhTot perm = List.range nPhTot ∧
    (myNObs < nPhTot → perm.Perm (List.range nPhTot) →
      select_idxs myNObs nPhTot perm = perm.take myNObs ∧
      (select_idxs myNObs nPhTot perm).length = myNObs ∧
      (select_idxs myNObs nPhTot perm).Nodup ∧
      ∀ v ∈ select_idxs myNObs nPhTot perm, v < nPhTot) := by
  constructor
  · simp [select_idxs]
  · intro hlt hperm
    have hne : myNObs ≠ nPhTot := Nat.ne_of_lt hlt
    have hsel : select_idxs myNObs nPhTot perm = perm.take myNObs := by
      simp [select_idxs, hne]
    have hlen : perm.length = nPhTot := by
      simpa using hperm.length_eq
    refine ⟨hsel, ?_, ?_, ?_⟩
    · rw [hsel, List.length_take, hlen]
      omega
    · rw [hsel]
      exact ((hperm.nodup_iff).mpr (List.nodup_range nPhTot)).sublist
        (List.take_sublist myNObs perm)
    · intro v hv
      rw [hsel] at hv
      have hvp : v ∈ perm := (List.take_sublist myNObs perm).mem hv
      have := hperm.mem_iff.mp hvp
      exact List.mem_range.mp this

/-- C3 witness: permutation `[2, 0, 1]` of `[0, 3)` truncated to 2 entries. -/
theorem claim_C3_witness :
    select_idxs 2 3 [2, 0, 1] = [2, 0, 1].take 2 ∧
    (select_idxs 2 3 [2, 0, 1]).length = 2 ∧
    (select_idxs 2 3 [2, 0, 1]).Nodup ∧
    ∀ v ∈ select_idxs 2 3 [2, 0, 1], v < 3 :=
  (claim_C3 3 2 [2, 0, 1]).2 (by decide) (by decide)

/-- C4: the cumulative index `p_bins` built by `PhotonList.__init__` starts at
0, is monotonically non-decreasing, ends at the total photon count, and for
every photon index `j` in `[0, total)` the owner found by right-side binary
search minus one satisfies `p_bins[owner] ≤ j < p_bins[owner+1]`. -/
theorem claim_C4 (counts : List ℕ) :
    (p_bins counts).getD 0 0 = 0 ∧
    (∀ i j, i ≤ j → j ≤ counts.length →
      (p_bins counts).getD i 0 ≤ (p_bins counts).getD j 0) ∧
    (p_bins counts).getD counts.length 0 = counts.sum ∧
    (∀ jdx, jdx < counts.sum →
      (p_bins counts).getD (searchsorted_right (p_bins counts) jdx - 1) 0 ≤ jdx ∧
      jdx < (p_bins counts).getD (searchsorted_right (p_bins counts) jdx - 1 + 1) 0) := by
  refine ⟨by simp [p_bins], ?_, ?_, ?_⟩
  · intro i j hij hj
    rw [p_bins_getD counts i (le_trans hij hj), p_bins_getD counts j hj]
    exact take_sum_le_take_sum counts i j hij
  · rw [p_bins_getD counts counts.length le_rfl]
    simp
  · intro jdx hjdx
    set P : ℕ → Bool := fun x => decide (x ≤ jdx) with hP
    set a : List ℕ := p_bins counts with ha
    have hlen : a.length = counts.length + 1 := by
      simp [ha, p_bins, cumsum_length]
    -- the first element 0 satisfies the predicate, so the prefix is nonempty
    have hssr1 : 1 ≤ searchsorted_right a jdx := by
      have : a.takeWhile P = 0 :: (cumsum counts).takeWhile P := by
        simp [ha, p_bins, List.takeWhile, hP]
      simp [searchsorted_right, this, hP]
    -- the last element is the total count, which exceeds jdx
    have hmem : counts.sum ∈ a := by
      have h1 : a.getD counts.length 0 = counts.sum := by
        rw [ha]; rw [p_bins_getD counts counts.length le_rfl]; simp
      have h2 : counts.length < a.length := by omega
      rw [← h1]; exact getD_mem h2
    have hlt : (a.takeWhile P).length < a.length :=
      takeWhile_length_lt P a ⟨counts.sum, hmem, by simp [hP]; omega⟩
    have hub : P (a.getD (a.takeWhile P).length 0) = false :=
      takeWhile_getD_false P a hlt
    have hlb : P (a.getD ((a.takeWhile P).length - 1) 0) = true := by
      refine takeWhile_getD_true P a _ ?_
      have : (a.takeWhile P).length = searchsorted_right a jdx := rfl
      omega
    have heq : searchsorted_right a jdx - 1 + 1 = (a.takeWhile P).length := by
      have : (a.takeWhile P).length = searchsorted_right a jdx := rfl
      omega
    constructor
    · have := hlb
      simpa [hP] using this
    · rw [heq]
      have := hub
      simp only [hP, decide_eq_false_iff_not, not_le] at this
      exact this

/-- C4 witness: on counts `[2, 0, 3]` and selected photon index 4, the
bracketing property holds concretely. -/
theorem claim_C4_witness :
    (p_bins [2, 0, 3]).getD (searchsorted_right (p_bins [2, 0, 3]) 4 - 1) 0 ≤ 4 ∧
    4 < (p_bins [2, 0, 3]).getD (searchsorted_right (p_bins [2, 0, 3]) 4 - 1 + 1) 0 :=
  (claim_C4 [2, 0, 3]).2.2.2 4 (by decide)

/-- C6: with `no_shifting=True` and a feasible request, every selected
photon's observed energy is exactly its rest energy times
`scale_factor = (1+FiducialRedshift)/(1+redshift_new)` when a new redshift is
requested and times 1 otherwise — including when only a new distance is
requested. -/
theorem claim_C6 (pl : PhotonList) (normal : Normal)
    (areaNew expTimeNew redshiftNew distNew : Option ℚ) (skyCenter : ℚ × ℚ)
    (rng : Rng) (cosmoDA : ℚ → ℚ)
    (hF : specFraction pl.params cosmoDA areaNew expTimeNew redshiftNew distNew ≤ 1)
    (k : ℕ)
    (hk : k < (select_idxs
        (⌊(pl.photons.numPh.sum : ℚ) * specFraction pl.params cosmoDA areaNew
            expTimeNew redshiftNew distNew⌋).toNat
        pl.photons.numPh.sum rng.perm).length) :
    (project_photons pl normal areaNew expTimeNew redshiftNew distNew true
        skyCenter rng cosmoDA).2.map (fun ev => ev.eobs.getD k 0) =
      Except.ok
        ((pl.photons.energy.getD
            ((select_idxs
                (⌊(pl.photons.numPh.sum : ℚ) * specFraction pl.params cosmoDA
                    areaNew expTimeNew redshiftNew distNew⌋).toNat
                pl.photons.numPh.sum rng.perm).getD k 0) 0 : ℝ) *
          (((match redshiftNew with
             | some z => (1 + pl.params.fidRedshift) / (1 + z)
             | none => (1 : ℚ)) : ℚ) : ℝ)) := by
  have hrs := rescaleStep_eq pl.params cosmoDA areaNew expTimeNew redshiftNew
    distNew pl.photons.numPh.sum
  rw [if_neg (not_lt.mpr hF)] at hrs
  simp only [project_photons, hrs, Except.map, if_true]
  rw [map_getD (fun (q : ℚ) => (q : ℝ)) _ 0 0 k
      (by simpa [eobsNoShift] using hk)]
  rw [show ∀ l s, eobsNoShift pl.photons.energy l s =
        l.map (fun j => pl.photons.energy.getD j 0 * s) from fun _ _ => rfl]
  rw [map_getD (fun j => pl.photons.energy.getD j 0 *
        specScaleFactor pl.params redshiftNew) _ 0 0 k (by simpa using hk)]
  push_cast
  congr 1
  cases redshiftNew <;> simp [specScaleFactor]

/-- The Doppler factor exactly as the spec words it:
`shift = sqrt((1 - v_los/c) / (1 + v_los/c))` with `v_los` the projection of
the emitter's velocity (km/s, converted to cgs) onto the line-of-sight unit
vector. -/
noncomputable def specDopplerShift (vlosKms : ℝ) : ℝ :=
  Real.sqrt ((1 - vlosKms * 100000 / cLight) / (1 + vlosKms * 100000 / cLight))

/-- The code's Doppler factor written without the double negation: it is the
spec's formula with the sign of the velocity flipped. -/
theorem dopplerShift_eq (v : ℝ) :
    dopplerShift v =
      Real.sqrt ((1 + v * 100000 / cLight) / (1 - v * 100000 / cLight)) := by
  unfold dopplerShift
  congr 1
  ring

theorem eobsShifted_getD (energy vzCells : List ℚ) (idxs cells : List ℕ)
    (s : ℚ) (k : ℕ) (h1 : k < idxs.length) (h2 : k < cells.length) :
    (eobsShifted energy vzCells idxs cells s).getD k 0 =
      (energy.getD (idxs.getD k 0) 0 : ℝ) *
        dopplerShift (vzCells.getD (cells.getD k 0) 0) * (s : ℝ) := by
  unfold eobsShifted
  rw [map_getD _ _ ((0 : ℕ), (0 : ℕ)) 0 k (by rw [List.length_zip]; omega)]
  rw [zip_getD idxs cells 0 0 k h1 h2]

theorem vlosDot_getD (d : PhotonData) (zhat : ℚ × ℚ × ℚ) (i : ℕ)
    (h1 : i < d.vx.length) (h2 : i < d.vy.length) (h3 : i < d.vz.length) :
    (vlosDot d zhat).getD i 0 =
      d.vx.getD i 0 * zhat.1 + d.vy.getD i 0 * zhat.2.1 +
        d.vz.getD i 0 * zhat.2.2 := by
  unfold vlosDot
  rw [map_getD _ _ ((0 : ℚ), ((0 : ℚ), (0 : ℚ))) 0 i
      (by rw [List.length_zip, List.length_zip]; omega)]
  rw [zip_getD d.vx (d.vy.zip d.vz) 0 (0, 0) i h1
      (by rw [List.length_zip]; omega)]
  rw [zip_getD d.vy d.vz 0 0 i h2 h3]

/-- C5 (amended): with Doppler shifting enabled and a feasible request, every
selected photon's observed energy is its rest energy times
`sqrt((1 + v_los/c) / (1 - v_los/c))` — the spec's formula with the sign of
`v_los` flipped — times the cosmological scale factor, where `v_los` is the
owning emitter's velocity projected onto the line-of-sight unit vector
(`z_hat` off-axis, the principal-axis component on-axis). -/
theorem claim_C5 (pl : PhotonList) (normal : Normal)
    (areaNew expTimeNew redshiftNew distNew : Option ℚ) (skyCenter : ℚ × ℚ)
    (rng : Rng) (cosmoDA : ℚ → ℚ)
    (hF : specFraction pl.params cosmoDA areaNew expTimeNew redshiftNew distNew ≤ 1)
    (k : ℕ)
    (hk : k < (select_idxs
        (⌊(pl.photons.numPh.sum : ℚ) * specFraction pl.params cosmoDA areaNew
            expTimeNew redshiftNew distNew⌋).toNat
        pl.photons.numPh.sum rng.perm).length) :
    ((project_photons pl normal areaNew expTimeNew redshiftNew distNew false
        skyCenter rng cosmoDA).2.map (fun ev => ev.eobs.getD k 0) =
      Except.ok
        ((pl.photons.energy.getD
            ((select_idxs
                (⌊(pl.photons.numPh.sum : ℚ) * specFraction pl.params cosmoDA
                    areaNew expTimeNew redshiftNew distNew⌋).toNat
                pl.photons.numPh.sum rng.perm).getD k 0) 0 : ℝ) *
          Real.sqrt
            ((1 + (((match normal with
                     | Normal.axis ax => velField pl.photons ax
                     | Normal.vector _ _ zh => vlosDot pl.photons zh).getD
                      ((obs_cells (p_bins pl.photons.numPh)
                        (select_idxs
                          (⌊(pl.photons.numPh.sum : ℚ) * specFraction pl.params
                              cosmoDA areaNew expTimeNew redshiftNew distNew⌋).toNat
                          pl.photons.numPh.sum rng.perm)).getD k 0) 0 : ℚ) : ℝ) *
                100000 / cLight) /
             (1 - (((match normal with
                     | Normal.axis ax => velField pl.photons ax
                     | Normal.vector _ _ zh => vlosDot pl.photons zh).getD
                      ((obs_cells (p_bins pl.photons.numPh)
                        (select_idxs
                          (⌊(pl.photons.numPh.sum : ℚ) * specFraction pl.params
                              cosmoDA areaNew expTimeNew redshiftNew distNew⌋).toNat
                          pl.photons.numPh.sum rng.perm)).getD k 0) 0 : ℚ) : ℝ) *
                100000 / cLight)) *
          (specScaleFactor pl.params redshiftNew : ℝ))) ∧
    (∀ zhat : ℚ × ℚ × ℚ, ∀ i : ℕ, i < pl.photons.vx.length →
        i < pl.photons.vy.length → i < pl.photons.vz.length →
      (vlosDot pl.photons zhat).getD i 0 =
        pl.photons.vx.getD i 0 * zhat.1 + pl.photons.vy.getD i 0 * zhat.2.1 +
          pl.photons.vz.getD i 0 * zhat.2.2) := by
  constructor
  · have hrs := rescaleStep_eq pl.params cosmoDA areaNew expTimeNew redshiftNew
      distNew pl.photons.numPh.sum
    rw [if_neg (not_lt.mpr hF)] at hrs
    simp only [project_photons, hrs, Except.map, Bool.false_eq_true, if_false]
    rw [eobsShifted_getD _ _ _ _ _ k (by simpa using hk)
        (by simpa [obs_cells] using hk)]
    rw [dopplerShift_eq]
  · intro zhat i h1 h2 h3
    exact vlosDot_getD pl.photons zhat i h1 h2 h3

/-- Concrete photon list for C5: one cell whose line-of-sight velocity is
149896.229 km/s, i.e. c/2 in cgs, with a single photon of rest energy 1 keV
and fiducial redshift 0. -/
def exPl5 : PhotonList :=
  ⟨⟨[0], [0], [0], [0], [0], [149896229/1000], [10], [1], [1]⟩,
   ⟨100000, 1000, 0, 500, 64, 1000⟩⟩

/-- Concrete rng oracle for C5. -/
def exRng5 : Rng := ⟨[0], [0], [0], [0]⟩

/-- C5 counterexample: on `exPl5` (line-of-sight velocity c/2, rest energy 1,
no overrides, shifting enabled) the code produces
`sqrt((1+1/2)/(1-1/2)) = sqrt 3`, not the claimed
`sqrt((1-1/2)/(1+1/2)) = sqrt(1/3)`: the claim's formula with `v_los` the
projection onto `z_hat` has the sign of the velocity backwards. -/
theorem claim_C5_counterexample :
    (project_photons exPl5 (Normal.axis Axis.z) none none none none false
        (30, 45) exRng5 (fun _ => 500)).2.map (fun ev => ev.eobs.getD 0 0) ≠
      Except.ok ((exPl5.photons.energy.getD 0 0 : ℝ) *
        specDopplerShift (((velField exPl5.photons Axis.z).getD 0 0 : ℚ) : ℝ) *
        1) := by
  have hrs : rescaleStep exPl5.params (fun _ => 500) none none none none
      exPl5.photons.numPh.sum = Except.ok ⟨1, 0, 500, 1⟩ := rfl
  have hL : (project_photons exPl5 (Normal.axis Axis.z) none none none none
      false (30, 45) exRng5 (fun _ => 500)).2.map (fun ev => ev.eobs.getD 0 0) =
      Except.ok ((1 : ℝ) * dopplerShift (149896229/1000) * 1) := by
    simp only [project_photons, hrs, Except.map, Bool.false_eq_true, if_false]
    rw [eobsShifted_getD _ _ _ _ _ 0 (by decide) (by decide)]
    norm_num [exPl5, exRng5, select_idxs, obs_cells, p_bins, cumsum,
      searchsorted_right, velField]
  rw [hL]
  have hd : dopplerShift (149896229/1000) = Real.sqrt 3 := by
    unfold dopplerShift cLight
    norm_num
  have hs : specDopplerShift (((velField exPl5.photons Axis.z).getD 0 0 : ℚ) : ℝ) =
      Real.sqrt (1/3) := by
    unfold specDopplerShift cLight
    norm_num [exPl5, velField]
  have he : (exPl5.photons.energy.getD 0 0 : ℚ) = 1 := by decide
  rw [hd, hs, he]
  intro h
  have h2 : Real.sqrt 3 = Real.sqrt (1/3) := by
    have := Except.ok.inj h
    simpa using this
  have h3 : Real.sqrt 3 ^ 2 = 3 := Real.sq_sqrt (by norm_num)
  rw [h2, Real.sq_sqrt (by norm_num : (0:ℝ) ≤ 1/3)] at h3
  norm_num at h3

/-- C5 witness: at velocity 0 the amended formula evaluates on `exPl5`'s
shape with the trivial projection vector. -/
theorem claim_C5_witness :
    ((project_photons exPl5 (Normal.axis Axis.z) none none none none false
        (30, 45) exRng5 (fun _ => 500)).2.map (fun ev => ev.eobs.getD 0 0) =
      Except.ok
        ((exPl5.photons.energy.getD
            ((select_idxs
                (⌊(exPl5.photons.numPh.sum : ℚ) * specFraction exPl5.params
                    (fun _ => 500) none none none none⌋).toNat
                exPl5.photons.numPh.sum exRng5.perm).getD 0 0) 0 : ℝ) *
          Real.sqrt
            ((1 + (((match Normal.axis Axis.z with
                     | Normal.axis ax => velField exPl5.photons ax
                     | Normal.vector _ _ zh => vlosDot exPl5.photons zh).getD
                      ((obs_cells (p_bins exPl5.photons.numPh)
                        (select_idxs
                          (⌊(exPl5.photons.numPh.sum : ℚ) * specFraction exPl5.params
                              (fun _ => 500) none none none none⌋).toNat
                          exPl5.photons.numPh.sum exRng5.perm)).getD 0 0) 0 : ℚ) : ℝ) *
                100000 / cLight) /
             (1 - (((match Normal.axis Axis.z with
                     | Normal.axis ax => velField exPl5.photons ax
                     | Normal.vector _ _ zh => vlosDot exPl5.photons zh).getD
                      ((obs_cells (p_bins exPl5.photons.numPh)
                        (select_idxs
                          (⌊(exPl5.photons.numPh.sum : ℚ) * specFraction exPl5.params
                              (fun _ => 500) none none none none⌋).toNat
                          exPl5.photons.numPh.sum exRng5.perm)).getD 0 0) 0 : ℚ) : ℝ) *
                100000 / cLight)) *
          (specScaleFactor exPl5.params none : ℝ))) ∧
    (vlosDot exPl5.photons (0, 0, 1)).getD 0 0 =
      exPl5.photons.vx.getD 0 0 * (0 : ℚ) + exPl5.photons.vy.getD 0 0 * (0 : ℚ) +
        exPl5.photons.vz.getD 0 0 * (1 : ℚ) :=
  ⟨(claim_C5 exPl5 (Normal.axis Axis.z) none none none none (30, 45) exRng5
      (fun _ => 500)
      (by norm_num [specFraction, specAratio, specTratio, specDratio])
      0
      (by norm_num [specFraction, specAratio, specTratio, specDratio, exPl5,
            exRng5, select_idxs])).1,
   (claim_C5 exPl5 (Normal.axis Axis.z) none none none none (30, 45) exRng5
      (fun _ => 500)
      (by norm_num [specFraction, specAratio, specTratio, specDratio])
      0
      (by norm_num [specFraction, specAratio, specTratio, specDratio, exPl5,
            exRng5, select_idxs])).2 (0, 0, 1) 0 (by decide) (by decide) (by decide)⟩

/-- Concrete photon list used by the C6 witness: one cell, five photons,
fiducial area 1000 cm². -/
def exPl6 : PhotonList :=
  ⟨⟨[0], [0], [0], [0], [0], [0], [10], [5], [1, 2, 3, 4, 5]⟩,
   ⟨100000, 1000, 1/20, 500, 64, 1000⟩⟩

/-- Concrete rng oracle used by the C6 witness. -/
def exRng6 : Rng := ⟨[4, 2, 0, 3, 1], [0, 0, 0, 0, 0], [0, 0, 0, 0, 0], [0, 0, 0, 0, 0]⟩

/-- C6 witness: requesting the fiducial area back (fraction exactly 1) with
`no_shifting=True` and no redshift override leaves the first selected
photon's energy multiplied by 1. -/
theorem claim_C6_witness :
    (project_photons exPl6 (Normal.axis Axis.z) (some 1000) none none none true
        (30, 45) exRng6 (fun _ => 500)).2.map (fun ev => ev.eobs.getD 0 0) =
      Except.ok
        ((exPl6.photons.energy.getD
            ((select_idxs
                (⌊(exPl6.photons.numPh.sum : ℚ) * specFraction exPl6.params
                    (fun _ => 500) (some 1000) none none none⌋).toNat
                exPl6.photons.numPh.sum exRng6.perm).getD 0 0) 0 : ℝ) *
          (((match (none : Option ℚ) with
             | some z => (1 + exPl6.params.fidRedshift) / (1 + z)
             | none => (1 : ℚ)) : ℚ) : ℝ)) :=
  claim_C6 exPl6 (Normal.axis Axis.z) (some 1000) none none none (30, 45)
    exRng6 (fun _ => 500)
    (by norm_num [specFraction, specAratio, specTratio, specDratio, exPl6])
    0
    (by norm_num [specFraction, specAratio, specTratio, specDratio, exPl6,
        exRng6, select_idxs]
        decide)

/-- Concrete photon list for C9: two cells, five photons. -/
def exPl9 : PhotonList :=
  ⟨⟨[0, 0], [0, 0], [0, 0], [0, 0], [0, 0], [0, 0], [10, 10], [2, 3],
    [1, 2, 3, 4, 5]⟩,
   ⟨100000, 1000, 1/20, 500, 64, 1000⟩⟩

/-- Concrete rng oracle for C9. -/
def exRng9 : Rng := ⟨[4, 2, 0, 3, 1], [0, 0, 0, 0, 0], [0, 0, 0, 0, 0], [0, 0, 0, 0, 0]⟩

/-- C9 evidence: supplying BOTH `redshift_new = 1/2` and `dist_new = 200` is
not rejected — the source only calls `mylog.error` (lines 494-496) and then
proceeds through the redshift branch, producing an `EventList` whose observed
redshift is 1/2 and whose distance comes from the cosmology
(`cosmoDA(1/2) = 1000`), silently ignoring the requested distance. -/
theorem claim_C9_code_divergence :
    (project_photons exPl9 (Normal.axis Axis.z) none none (some (1/2))
        (some 200) true (30, 45) exRng9 (fun _ => 1000)).2.map
      (fun ev => (ev.redshift, ev.dA)) = Except.ok ((1/2 : ℚ), (1000 : ℚ)) := by
  have hF : ¬ 1 < specFraction exPl9.params (fun _ => 1000) none none
      (some (1/2)) (some 200) := by
    norm_num [specFraction, specAratio, specTratio, specDratio, exPl9]
  have hrs := rescaleStep_eq exPl9.params (fun _ => 1000) none none
    (some (1/2)) (some 200) exPl9.photons.numPh.sum
  rw [if_neg hF] at hrs
  simp only [project_photons, hrs, Except.map]
  simp [specZobs, specDA]

/-- Parameters shared by the C7 example event lists. -/
def exParams7 : EvParams := ⟨100000, 1000, 0, 500, (30, 45), (2, 2), 1⟩

/-- C7 left operand with cached sky coordinates appended by a prior
`__getitem__("xsky")` access. -/
def exA7 : EventListPS :=
  ⟨[("xpix", [1]), ("ypix", [2]), ("eobs", [3]), ("xsky", [9]), ("ysky", [8])],
   exParams7⟩

/-- C7 right operand without cached sky coordinates. -/
def exB7 : EventListPS := ⟨[("xpix", [4]), ("ypix", [5]), ("eobs", [6])], exParams7⟩

/-- C7 counterexample: merging two geometry-identical event lists where only
the left operand carries the cached `xsky`/`ysky` fields succeeds but silently
drops those fields, so "every event field is the concatenation of the
corresponding fields of the two operands" fails. -/
theorem claim_C7_counterexample :
    addEventLists exA7 exB7 =
      Except.ok ⟨[("xpix", [1, 4]), ("ypix", [2, 5]), ("eobs", [3, 6])],
                 exParams7⟩ ∧
    "xsky" ∈ exA7.events.map Prod.fst ∧
    "xsky" ∉ (([("xpix", [(1:ℚ), 4]), ("ypix", [2, 5]), ("eobs", [3, 6])] :
        List (String × List ℚ)).map Prod.fst) := by
  refine ⟨rfl, ?_, ?_⟩
  · simp [exA7]
  · simp

/-- Positional `zip`-merge of two aligned event dictionaries: when the two
field lists have the same length and the parameter sets agree, `__add__`
succeeds and pairs the fields positionally, concatenating left-first under
the left operand's key. -/
theorem addEventLists_aligned (a b : EventListPS)
    (hlen : a.events.length = b.events.length) (heq : a.params = b.params) :
    ∃ r, addEventLists a b = Except.ok r ∧ r.params = a.params ∧
      r.events.length = a.events.length ∧
      ∀ k, k < a.events.length →
        r.events.getD k ("", []) =
          ((a.events.getD k ("", [])).1,
            (a.events.getD k ("", [])).2 ++ (b.events.getD k ("", [])).2) := by
  have hw : sameWcs a.params b.params := by simp [sameWcs, heq]
  have hv : validate_parameters a.params b.params := by
    simp [validate_parameters, heq]
  have hab : addEventLists a b =
      Except.ok ⟨(a.events.zip b.events).map
        (fun p => (p.1.1, p.1.2 ++ p.2.2)), a.params⟩ := by
    simp [addEventLists, hw, hv]
  refine ⟨_, hab, rfl, ?_, ?_⟩
  · simp [List.length_zip, hlen]
  · intro k hkk
    rw [map_getD _ _ (("", []), ("", [])) ("", []) k
        (by rw [List.length_zip]; omega)]
    rw [zip_getD a.events b.events ("", []) ("", []) k hkk (by omega)]

/-- C7 (amended): `__add__` raises the geometry error whenever the parameter
sets (hence the WCS built from them) differ; when they agree and the two
operands list the same field names in the same order, every field of the
result is the left-first concatenation of the operands' corresponding fields,
and combining in either order yields permuted (multiset-equal) field
contents.  Fields present in only one operand are silently dropped (see the
counterexample). -/
theorem claim_C7 (a b : EventListPS)
    (hk : a.events.map Prod.fst = b.events.map Prod.fst) :
    (a.params ≠ b.params →
      addEventLists a b = Except.error "GeometryMismatch") ∧
    (a.params = b.params →
      ∃ r s, addEventLists a b = Except.ok r ∧
        addEventLists b a = Except.ok s ∧
        r.params = a.params ∧ r.events.length = a.events.length ∧
        ∀ k, k < a.events.length →
          r.events.getD k ("", []) =
            ((a.events.getD k ("", [])).1,
              (a.events.getD k ("", [])).2 ++ (b.events.getD k ("", [])).2) ∧
          ((r.events.getD k ("", [])).2).Perm ((s.events.getD k ("", [])).2)) := by
  have hlen : a.events.length = b.events.length := by
    have := congrArg List.length hk
    simpa using this
  constructor
  · intro hne
    unfold addEventLists
    by_cases hws : sameWcs a.params b.params
    · rw [if_neg (by simpa using hws)]
      rw [if_pos]
      simp only [validate_parameters]
      simpa using hne
    · rw [if_pos (by simpa using hws)]
  · intro heq
    obtain ⟨r, hab, hrp, hrlen, hrget⟩ := addEventLists_aligned a b hlen heq
    obtain ⟨s, hba, _, _, hsget⟩ :=
      addEventLists_aligned b a hlen.symm heq.symm
    refine ⟨r, s, hab, hba, hrp, hrlen, ?_⟩
    intro k hkk
    refine ⟨(hrget k hkk).symm ▸ rfl, ?_⟩
    rw [hrget k hkk, hsget k (by omega)]
    exact List.perm_append_comm

/-- Parameters for the C7 witness pair. -/
def exParams7w : EvParams := ⟨200000, 2000, 0, 400, (10, 20), (3, 3), 1⟩

/-- C7 witness left operand. -/
def exA7w : EventListPS :=
  ⟨[("xpix", [1]), ("ypix", [2]), ("eobs", [3])], exParams7w⟩

/-- C7 witness right operand. -/
def exB7w : EventListPS :=
  ⟨[("xpix", [4, 7]), ("ypix", [5, 8]), ("eobs", [6, 9])], exParams7w⟩

/-- C7 witness: two aligned three-field event lists with identical parameters
merge into concatenated fields in both orders. -/
theorem claim_C7_witness :
    ∃ r s, addEventLists exA7w exB7w = Except.ok r ∧
      addEventLists exB7w exA7w = Except.ok s ∧
      r.params = exA7w.params ∧ r.events.length = exA7w.events.length ∧
      ∀ k, k < exA7w.events.length →
        r.events.getD k ("", []) =
          ((exA7w.events.getD k ("", [])).1,
            (exA7w.events.getD k ("", [])).2 ++
              (exB7w.events.getD k ("", [])).2) ∧
        ((r.events.getD k ("", [])).2).Perm ((s.events.getD k ("", [])).2) :=
  (claim_C7 exA7w exB7w rfl).2 rfl

/-- Parameters shared by the C10 example event lists. -/
def exParams10 : EvParams := ⟨100000, 1000, 0, 500, (30, 45), (2, 2), 1⟩

/-- C10 left operand with cached sky-coordinate fields. -/
def exA10 : EventListPS :=
  ⟨[("xpix", [1]), ("ypix", [2]), ("eobs", [3]), ("xsky", [9]), ("ysky", [8])],
   exParams10⟩

/-- C10 right operand without them. -/
def exB10 : EventListPS :=
  ⟨[("xpix", [4]), ("ypix", [5]), ("eobs", [6])], exParams10⟩

/-- C10: `__add__` pairs the operands' `items()` positionally, not by key:
with identical keys in identical order every result key maps to the
concatenation of both operands' values, but when one operand carries extra
cached fields (`xsky`/`ysky` inserted by a prior sky-coordinate access) the
zip silently drops fields instead of raising an error. -/
theorem claim_C10 :
    (∀ a b : EventListPS, a.events.map Prod.fst = b.events.map Prod.fst →
      a.params = b.params →
      ∃ r, addEventLists a b = Except.ok r ∧
        r.events.length = a.events.length ∧
        ∀ k, k < a.events.length →
          r.events.getD k ("", []) =
            ((a.events.getD k ("", [])).1,
              (a.events.getD k ("", [])).2 ++ (b.events.getD k ("", [])).2)) ∧
    (addEventLists exA10 exB10 =
        Except.ok ⟨[("xpix", [1, 4]), ("ypix", [2, 5]), ("eobs", [3, 6])],
                   exParams10⟩ ∧
      "xsky" ∈ exA10.events.map Prod.fst ∧
      "xsky" ∉ (([("xpix", [(1:ℚ), 4]), ("ypix", [2, 5]), ("eobs", [3, 6])] :
          List (String × List ℚ)).map Prod.fst)) := by
  constructor
  · intro a b hk heq
    have hlen : a.events.length = b.events.length := by
      have := congrArg List.length hk
      simpa using this
    obtain ⟨r, hab, _, hrlen, hrget⟩ := addEventLists_aligned a b hlen heq
    exact ⟨r, hab, hrlen, hrget⟩
  · refine ⟨rfl, ?_, ?_⟩
    · simp [exA10]
    · simp

/-- C10 witness: the aligned-merge half evaluated on a concrete aligned
pair. -/
theorem claim_C10_witness :
    ∃ r, addEventLists
        ⟨[("xpix", [(1:ℚ)]), ("ypix", [2]), ("eobs", [3])], exParams10⟩
        ⟨[("xpix", [(4:ℚ)]), ("ypix", [5]), ("eobs", [6])], exParams10⟩ =
        Except.ok r ∧
      r.events.length =
        (⟨[("xpix", [(1:ℚ)]), ("ypix", [2]), ("eobs", [3])],
          exParams10⟩ : EventListPS).events.length ∧
      ∀ k, k < (⟨[("xpix", [(1:ℚ)]), ("ypix", [2]), ("eobs", [3])],
          exParams10⟩ : EventListPS).events.length →
        r.events.getD k ("", []) =
          (((⟨[("xpix", [(1:ℚ)]), ("ypix", [2]), ("eobs", [3])],
              exParams10⟩ : EventListPS).events.getD k ("", [])).1,
            ((⟨[("xpix", [(1:ℚ)]), ("ypix", [2]), ("eobs", [3])],
              exParams10⟩ : EventListPS).events.getD k ("", [])).2 ++
              ((⟨[("xpix", [(4:ℚ)]), ("ypix", [5]), ("eobs", [6])],
                exParams10⟩ : EventListPS).events.getD k ("", [])).2) :=
  claim_C10.1
    ⟨[("xpix", [(1:ℚ)]), ("ypix", [2]), ("eobs", [3])], exParams10⟩
    ⟨[("xpix", [(4:ℚ)]), ("ypix", [5]), ("eobs", [6])], exParams10⟩
    rfl rfl

/-- Membership of a coordinate in the overall histogram range
`[0.5, nb + 0.5]` of `write_fits_image`'s bin grid (empty when there are no
bins). -/
def inRange1 (nb : ℕ) (v : ℚ) : Bool :=
  decide (1 ≤ nb) && decide ((1:ℚ)/2 ≤ v) && decide (v ≤ 1/2 + nb)

theorem inBin_exists (nb : ℕ) (v : ℚ) (h1 : 1 ≤ nb) (h2 : (1:ℚ)/2 ≤ v)
    (h3 : v ≤ 1/2 + nb) :
    inBin nb (min (⌊v - 1/2⌋).toNat (nb - 1)) v = true := by
  have hf0 : (0:ℤ) ≤ ⌊v - 1/2⌋ := Int.floor_nonneg.mpr (by linarith)
  have hfcast : ((⌊v - 1/2⌋.toNat : ℕ) : ℚ) = ((⌊v - 1/2⌋ : ℤ) : ℚ) := by
    exact_mod_cast congrArg (fun z : ℤ => (z : ℚ)) (Int.toNat_of_nonneg hf0)
  set k := min (⌊v - 1/2⌋).toNat (nb - 1) with hkdef
  have hklow : (1:ℚ)/2 + k ≤ v := by
    have h4 : (k : ℚ) ≤ ((⌊v - 1/2⌋.toNat : ℕ) : ℚ) :=
      Nat.cast_le.mpr (min_le_left _ _)
    have h5 : ((⌊v - 1/2⌋ : ℤ) : ℚ) ≤ v - 1/2 := Int.floor_le _
    rw [hfcast] at h4
    linarith
  unfold inBin
  rw [Bool.and_eq_true]
  refine ⟨decide_eq_true hklow, ?_⟩
  by_cases hk1 : k + 1 = nb
  · rw [if_pos hk1]
    exact decide_eq_true h3
  · rw [if_neg hk1]
    apply decide_eq_true
    have hkle : k ≤ nb - 1 := min_le_right _ _
    have hklt : k < nb - 1 := by
      rcases lt_or_eq_of_le hkle with hcase | hcase
      · exact hcase
      · exfalso
        apply hk1
        rw [hcase]
        omega
    have hkeq : k = ⌊v - 1/2⌋.toNat := by
      rcases Nat.le_total (⌊v - 1/2⌋).toNat (nb - 1) with hc | hc
      · rw [hkdef, min_eq_left hc]
      · exfalso
        rw [hkdef, min_eq_right hc] at hklt
        omega
    have h6 : v - 1/2 < ((⌊v - 1/2⌋ : ℤ) : ℚ) + 1 := Int.lt_floor_add_one _
    rw [← hfcast, ← hkeq] at h6
    linarith

theorem inBin_imp_range (nb i : ℕ) (v : ℚ) (hi : i < nb)
    (hb : inBin nb i v = true) : (1:ℚ)/2 ≤ v ∧ v ≤ 1/2 + nb := by
  unfold inBin at hb
  rw [Bool.and_eq_true] at hb
  obtain ⟨hb1, hb2⟩ := hb
  have hlow : (1:ℚ)/2 + i ≤ v := of_decide_eq_true hb1
  have hi0 : (0:ℚ) ≤ i := Nat.cast_nonneg i
  refine ⟨by linarith, ?_⟩
  by_cases hc : i + 1 = nb
  · rw [if_pos hc] at hb2
    exact of_decide_eq_true hb2
  · rw [if_neg hc] at hb2
    have := of_decide_eq_true hb2
    have hcle : ((i:ℚ) + 1) ≤ (nb:ℚ) := by
      have : i + 1 ≤ nb := hi
      exact_mod_cast this
    linarith

theorem inBin_unique (nb i j : ℕ) (v : ℚ) (hi : i < nb) (hj : j < nb)
    (h1 : inBin nb i v = true) (h2 : inBin nb j v = true) : i = j := by
  have key : ∀ a b : ℕ, a < nb → b < nb → inBin nb a v = true →
      inBin nb b v = true → a < b → False := by
    intro a b ha hb hba hbb hab
    unfold inBin at hba hbb
    rw [Bool.and_eq_true] at hba hbb
    have hblow : (1:ℚ)/2 + b ≤ v := of_decide_eq_true hbb.1
    by_cases hc : a + 1 = nb
    · omega
    · have := hba.2
      rw [if_neg hc] at this
      have haup : v < (1:ℚ)/2 + (a + 1) := of_decide_eq_true this
      have hcast : ((a:ℚ) + 1) ≤ (b:ℚ) := by
        have : a + 1 ≤ b := hab
        exact_mod_cast this
      linarith
  rcases Nat.lt_trichotomy i j with hc | hc | hc
  · exact absurd (key i j hi hj h1 h2 hc) (fun f => f.elim)
  · exact hc
  · exact absurd (key j i hj hi h2 h1 hc) (fun f => f.elim)

theorem sum_inBin (nb : ℕ) (v : ℚ) :
    (∑ i in Finset.range nb, if inBin nb i v = true then 1 else 0) =
      if inRange1 nb v = true then 1 else 0 := by
  by_cases hr : inRange1 nb v = true
  · unfold inRange1 at hr
    rw [Bool.and_eq_true, Bool.and_eq_true] at hr
    obtain ⟨⟨hr1, hr2⟩, hr3⟩ := hr
    have h1 : 1 ≤ nb := of_decide_eq_true hr1
    have h2 : (1:ℚ)/2 ≤ v := of_decide_eq_true hr2
    have h3 : v ≤ 1/2 + nb := of_decide_eq_true hr3
    set k := min (⌊v - 1/2⌋).toNat (nb - 1) with hkdef
    have hk : k < nb :=
      lt_of_le_of_lt (min_le_right _ _) (Nat.sub_lt (by omega) one_pos)
    rw [if_pos]
    swap
    · unfold inRange1
      rw [Bool.and_eq_true, Bool.and_eq_true]
      exact ⟨⟨decide_eq_true h1, decide_eq_true h2⟩, decide_eq_true h3⟩
    rw [Finset.sum_eq_single_of_mem k (Finset.mem_range.mpr hk)]
    · rw [if_pos (inBin_exists nb v h1 h2 h3)]
    · intro j hjmem hjne
      rw [if_neg]
      intro hbj
      exact hjne (inBin_unique nb j k v (Finset.mem_range.mp hjmem) hk hbj
        (inBin_exists nb v h1 h2 h3))
  · rw [if_neg hr]
    apply Finset.sum_eq_zero
    intro j hj
    rw [if_neg]
    intro hbj
    apply hr
    have hjlt : j < nb := Finset.mem_range.mp hj
    obtain ⟨ha, hb⟩ := inBin_imp_range nb j v hjlt hbj
    unfold inRange1
    rw [Bool.and_eq_true, Bool.and_eq_true]
    exact ⟨⟨decide_eq_true (by omega : 1 ≤ nb), decide_eq_true ha⟩,
      decide_eq_true hb⟩

theorem hist_sum_list (nx ny : ℕ) (φ : ℚ × ℚ × ℚ → Bool)
    (l : List (ℚ × ℚ × ℚ)) :
    (∑ i in Finset.range nx, ∑ j in Finset.range ny,
      l.countP (fun t => φ t && inBin nx i t.1 && inBin ny j t.2.1)) =
    l.countP (fun t => φ t && inRange1 nx t.1 && inRange1 ny t.2.1) := by
  induction l with
  | nil => simp
  | cons t ts ih =>
    simp only [List.countP_cons, Finset.sum_add_distrib]
    rw [ih]
    have hpoint : (∑ i in Finset.range nx, ∑ j in Finset.range ny,
        if (φ t && inBin nx i t.1 && inBin ny j t.2.1) = true then 1 else 0) =
        if (φ t && inRange1 nx t.1 && inRange1 ny t.2.1) = true then 1 else 0 := by
      have split : ∀ X Y : Bool,
          (if (X && Y) = true then (1:ℕ) else 0) =
            (if X = true then 1 else 0) * (if Y = true then 1 else 0) := by
        decide
      cases hφ : φ t with
      | false => simp
      | true =>
        simp only [Bool.true_and]
        calc (∑ i in Finset.range nx, ∑ j in Finset.range ny,
              if (inBin nx i t.1 && inBin ny j t.2.1) = true then 1 else 0)
            = (∑ i in Finset.range nx,
                (if inBin nx i t.1 = true then 1 else 0)) *
              (∑ j in Finset.range ny,
                (if inBin ny j t.2.1 = true then 1 else 0)) := by
              rw [Finset.sum_mul_sum]
              refine Finset.sum_congr rfl fun i _ => ?_
              refine Finset.sum_congr rfl fun j _ => ?_
              exact split _ _
          _ = (if inRange1 nx t.1 = true then 1 else 0) *
              (if inRange1 ny t.2.1 = true then 1 else 0) := by
              rw [sum_inBin, sum_inBin]
          _ = if (inRange1 nx t.1 && inRange1 ny t.2.1) = true then 1 else 0 := by
              rw [split]
    omega

/-- C8 (amended): the image written by `write_fits_image` histograms the
energy-masked events into a `(2*pix_center[0]-1) × (2*pix_center[1]-1)` grid
of unit bins, and the sum over all bins equals the number of events that pass
the energy mask AND whose pixel coordinates fall inside the grid's range
`[0.5, nx+0.5] × [0.5, ny+0.5]`; events outside that range are silently
excluded from the histogram (see the counterexample). -/
theorem claim_C8 (pixCenter : ℚ × ℚ) (xpix ypix eobs : List ℚ)
    (emin emax : Option ℚ) :
    (binImage pixCenter xpix ypix eobs emin emax).1 =
      pyInt (2 * pixCenter.1 - 1) ∧
    (binImage pixCenter xpix ypix eobs emin emax).2.1 =
      pyInt (2 * pixCenter.2 - 1) ∧
    (∑ i in Finset.range (binImage pixCenter xpix ypix eobs emin emax).1,
      ∑ j in Finset.range (binImage pixCenter xpix ypix eobs emin emax).2.1,
        (binImage pixCenter xpix ypix eobs emin emax).2.2 i j) =
      (eventTriples xpix ypix eobs).countP
        (fun t => energyMask emin emax t.2.2 &&
          inRange1 (pyInt (2 * pixCenter.1 - 1)) t.1 &&
          inRange1 (pyInt (2 * pixCenter.2 - 1)) t.2.1) := by
  refine ⟨rfl, rfl, ?_⟩
  exact hist_sum_list (pyInt (2 * pixCenter.1 - 1)) (pyInt (2 * pixCenter.2 - 1))
    (fun t => energyMask emin emax t.2.2) (eventTriples xpix ypix eobs)

/-- C8 counterexample: an event list with `pix_center = (1,1)` (one image
bin covering `[0.5, 1.5]²`) holding a single event at pixel `(0, 1)` that
passes the trivial energy mask: the histogram total is 0 while the masked
event count is 1, so the claimed equality with the full masked count fails. -/
theorem claim_C8_counterexample :
    ¬ ((∑ i in Finset.range (binImage (1, 1) [0] [1] [5] none none).1,
        ∑ j in Finset.range (binImage (1, 1) [0] [1] [5] none none).2.1,
          (binImage (1, 1) [0] [1] [5] none none).2.2 i j) =
      (eventTriples [0] [1] [5]).countP
        (fun t => energyMask none none t.2.2)) := by
  intro h
  have hnx : (binImage ((1:ℚ), (1:ℚ)) [0] [1] [5] none none).1 = 1 := by
    show pyInt (2 * 1 - 1) = 1
    norm_num [pyInt]
  have hny : (binImage ((1:ℚ), (1:ℚ)) [0] [1] [5] none none).2.1 = 1 := by
    show pyInt (2 * 1 - 1) = 1
    norm_num [pyInt]
  rw [hnx, hny] at h
  have hbin : inBin (pyInt (2 * (1:ℚ) - 1)) 0 (0:ℚ) = false := by
    unfold inBin
    have hno : ¬ ((1:ℚ)/2 + ((0:ℕ):ℚ) ≤ (0:ℚ)) := by norm_num
    rw [decide_eq_false hno, Bool.false_and]
  have hH : (binImage ((1:ℚ), (1:ℚ)) [0] [1] [5] none none).2.2 0 0 = 0 := by
    show (eventTriples [0] [1] [5]).countP
      (fun t => energyMask none none t.2.2 &&
        inBin (pyInt (2 * (1:ℚ) - 1)) 0 t.1 &&
        inBin (pyInt (2 * (1:ℚ) - 1)) 0 t.2.1) = 0
    rw [show eventTriples [0] [1] [5] = [((0:ℚ), ((1:ℚ), (5:ℚ)))] from rfl]
    rw [List.countP_cons, List.countP_nil, zero_add]
    rw [if_neg]
    intro hcontra
    rw [Bool.and_eq_true, Bool.and_eq_true] at hcontra
    obtain ⟨⟨hm, hx⟩, hy⟩ := hcontra
    rw [hbin] at hx
    exact Bool.false_ne_true hx
  rw [Finset.sum_range_one, Finset.sum_range_one, hH] at h
  rw [show eventTriples [0] [1] [5] = [((0:ℚ), ((1:ℚ), (5:ℚ)))] from rfl] at h
  rw [List.countP_cons, List.countP_nil, zero_add] at h
  simp [energyMask] at h

end Pyxsim
